import Mathlib

/-!
Verification development for the Lumina Slides editor.

The embedding below translates the state-management core of the
application controller (src/unnamed/part_001) and the generation client
(src/types.ts) into Lean.

Modelling conventions:
* React `useState` values become fields of `AppState`; each event
  handler becomes a function on `AppState`.
* Inside one handler invocation, closure variables (`history`,
  `historyIndex`, `slides`, `presentationTitle`) hold the values from
  the render that created the handler, while functional updaters
  (`setHistory (prev => ...)`, `setHistoryIndex (prev => ...)`) see the
  latest state.  `pushCore` therefore takes the captured history and
  index (the closure values) separately from the live ones; a handler
  that pushes twice passes the same captured values to both pushes.
* JavaScript `undefined`-returning array accesses that are then
  dereferenced (`history[historyIndex - 1].slides`) are modelled by
  `Option`: `undo`/`redo` return `none` exactly when the code would
  throw a TypeError.
* `alert(...)` calls are returned as a list of surfaced messages.
* Asynchronous external calls are abstracted by explicit outcome
  parameters (`GenOutcome`, `CallResult`, `FetchOutcome`): one value per
  awaited call, in program order.
-/

namespace LuminaSlides

/-- Slide layouts, from `SlideLayout` in src/types.ts. -/
inductive SlideLayout where
  | title
  | splitLeft
  | splitRight
  | center
  | imageHeavy
  | data
  | conclusion
deriving DecidableEq, Repr

/-- Media kinds, from `MediaType` in src/types.ts. -/
inductive MediaType where
  | none
  | image
  | video
deriving DecidableEq, Repr

/-- A slide, from the `Slide` interface in src/types.ts.  Optional
fields are `Option`s so that an absent (`undefined`) field is
distinguished from a present one, matching `JSON.stringify` equality. -/
structure Slide where
  id : String
  layout : SlideLayout
  title : String
  subtitle : Option String := Option.none
  content : List String
  imagePrompt : String
  mediaType : MediaType
  mediaUrl : Option String := Option.none
  isLoadingMedia : Option Bool := Option.none
  notes : Option String := Option.none
deriving DecidableEq, Repr

/-- One history entry: a snapshot of the deck, from the element type of
the `history` state in src/unnamed/part_001. -/
structure HistoryEntry where
  slides : List Slide
  title : String
deriving DecidableEq, Repr

/-- The controller state of the App component (the `useState` values
the history and editing logic reads and writes). -/
structure AppState where
  slides : List Slide
  currentSlideIndex : Nat
  presentationTitle : String
  history : List HistoryEntry
  historyIndex : Int
  isRestoringHistory : Bool
deriving DecidableEq, Repr

/-- JavaScript `arr.slice(0, e)` (a negative end counts from the end of
the array, clamped at 0). -/
def sliceTo (l : List α) (e : Int) : List α :=
  if e < 0 then l.take ((l.length : Int) + e).toNat else l.take e.toNat

/-- JavaScript `arr[i]` as an `Option` (negative or too-large indices
yield `undefined`). -/
def historyAt (l : List α) (i : Int) : Option α :=
  if i < 0 then Option.none else l.get? i.toNat

/-- JavaScript truthiness of a `string | null | undefined` value (both
absence and the empty string are falsy). -/
def jsTruthyStr : Option String → Bool
  | Option.none => false
  | Option.some s => s != ""

/-- Core of `pushToHistory` (src/unnamed/part_001 lines 53-66).  The
`captured` arguments are the `history` / `historyIndex` closure values
of the `useCallback`; the `live` arguments are the `prev` values the
functional updaters receive.  The index branch tests
`capturedHistory.length > 30`, exactly as the source tests
`history.length > 30`. -/
def pushCore (capturedHistory : List HistoryEntry) (capturedIndex : Int)
    (liveHistory : List HistoryEntry) (liveIndex : Int)
    (newSlides : List Slide) (newTitle : String) : List HistoryEntry × Int :=
  let appended := sliceTo liveHistory (capturedIndex + 1) ++ [{ slides := newSlides, title := newTitle }]
  let newHistory := if appended.length > 30 then appended.drop 1 else appended
  let newIndex : Int := if capturedHistory.length > 30 then 29 else liveIndex + 1
  (newHistory, newIndex)

/-- `pushToHistory` invoked once from a freshly created handler, so the
captured closure values coincide with the current state. -/
def pushToHistory (st : AppState) (newSlides : List Slide) (newTitle : String) : AppState :=
  let p := pushCore st.history st.historyIndex st.history st.historyIndex newSlides newTitle
  { st with history := p.1, historyIndex := p.2 }

/-- A sequence of independent `pushToHistory` calls (one per user
action, each from a fresh render). -/
def pushSeq (st : AppState) (snaps : List (List Slide × String)) : AppState :=
  snaps.foldl (fun s p => pushToHistory s p.1 p.2) st

/-- `undo` (src/unnamed/part_001 lines 68-78).  The
`isRestoringHistory` flag is set and reset back to `false` by a 0ms
timeout within the same event tick, so its net effect is `false`.
Returns `none` when `history[historyIndex - 1]` is `undefined` and the
dereference would throw. -/
def undo (st : AppState) : Option AppState :=
  if 0 < st.historyIndex then
    match historyAt st.history (st.historyIndex - 1) with
    | Option.some prevState =>
        Option.some { st with slides := prevState.slides,
                              presentationTitle := prevState.title,
                              historyIndex := st.historyIndex - 1,
                              isRestoringHistory := false }
    | Option.none => Option.none
  else Option.some st

/-- `redo` (src/unnamed/part_001 lines 80-89), same conventions as
`undo`. -/
def redo (st : AppState) : Option AppState :=
  if st.historyIndex < (st.history.length : Int) - 1 then
    match historyAt st.history (st.historyIndex + 1) with
    | Option.some nextState =>
        Option.some { st with slides := nextState.slides,
                              presentationTitle := nextState.title,
                              historyIndex := st.historyIndex + 1,
                              isRestoringHistory := false }
    | Option.none => Option.none
  else Option.some st

/-- Iterated `undo` (each click is a separate event). -/
def undoIter : Nat → AppState → Option AppState
  | 0, st => Option.some st
  | m + 1, st => (undo st).bind (undoIter m)

/-- Iterated `redo`. -/
def redoIter : Nat → AppState → Option AppState
  | 0, st => Option.some st
  | m + 1, st => (redo st).bind (redoIter m)

/-- `saveSnapshot` (src/unnamed/part_001 lines 194-202).  Note the
deduplication compares `JSON.stringify(lastState.slides)` with
`JSON.stringify(slides)`: only the slides, never the title. -/
def saveSnapshot (st : AppState) : AppState :=
  if st.isRestoringHistory then st
  else
    match historyAt st.history st.historyIndex with
    | Option.some lastState =>
        if lastState.slides = st.slides then st
        else pushToHistory st st.slides st.presentationTitle
    | Option.none => pushToHistory st st.slides st.presentationTitle

/-- `deleteSlide` (src/unnamed/part_001 lines 229-242).  The two
`pushToHistory` calls of one invocation share the closure values
captured at handler creation. -/
def deleteSlide (st : AppState) (index : Nat) : AppState × List String :=
  if st.slides.length ≤ 1 then
    (st, ["Presentation must have at least one slide."])
  else
    let p1 := pushCore st.history st.historyIndex st.history st.historyIndex st.slides st.presentationTitle
    let newSlides := (st.slides.enum.filter (fun p => p.1 != index)).map Prod.snd
    let newCurrent := if index ≤ st.currentSlideIndex ∧ 0 < st.currentSlideIndex
      then st.currentSlideIndex - 1 else st.currentSlideIndex
    let p2 := pushCore st.history st.historyIndex p1.1 p1.2 newSlides st.presentationTitle
    ({ st with slides := newSlides, currentSlideIndex := newCurrent,
               history := p2.1, historyIndex := p2.2 }, [])

/-- The `'image' | 'video'` request parameter of
`generateMediaForSlide`. -/
inductive MediaReq where
  | image
  | video
deriving DecidableEq, Repr

/-- `type === 'video' ? MediaType.Video : MediaType.Image`. -/
def MediaReq.toMediaType : MediaReq → MediaType
  | MediaReq.image => MediaType.image
  | MediaReq.video => MediaType.video

/-- Outcome of the awaited generation call chain inside
`generateMediaForSlide`: it either raises, or resolves with a possibly
null media locator.  (Prompt refinement is not modelled: it only alters
the prompt string passed to the abstracted call, and its failures are
absorbed by an inner catch.) -/
inductive GenOutcome where
  | raises
  | returns (url : Option String)
deriving DecidableEq, Repr

/-- `generateMediaForSlide` (src/unnamed/part_001 lines 103-145).
Returns the final state together with the alerts surfaced.  Both
`pushToHistory` calls and the final `slides.map` read the values
captured when the handler was created (`st`), while the
`setSlides(prev => ...)` updates are threaded through the live state —
exactly the source's closure structure. -/
def generateMediaForSlide (st : AppState) (slideId : String) (req : MediaReq)
    (outcome : GenOutcome) : AppState × List String :=
  let p1 := pushCore st.history st.historyIndex st.history st.historyIndex st.slides st.presentationTitle
  let st1 : AppState := { st with history := p1.1, historyIndex := p1.2 }
  match st.slides.find? (fun s => s.id == slideId) with
  | Option.none => (st1, [])
  | Option.some _slide =>
    let st2 : AppState := { st1 with slides := st1.slides.map (fun s =>
        if s.id == slideId then
          { s with isLoadingMedia := Option.some true, mediaType := req.toMediaType }
        else s) }
    match outcome with
    | GenOutcome.raises =>
        ({ st2 with slides := st2.slides.map (fun s =>
            if s.id == slideId then
              { s with isLoadingMedia := Option.some false, mediaType := MediaType.none }
            else s) },
         ["Media generation failed. Please try again."])
    | GenOutcome.returns url =>
        let updatedSlides := st.slides.map (fun s =>
          if s.id == slideId then
            { s with isLoadingMedia := Option.some false,
                     mediaUrl := if jsTruthyStr url then url else Option.none,
                     mediaType := if jsTruthyStr url then req.toMediaType else MediaType.none }
          else s)
        let st3 : AppState := { st2 with slides := updatedSlides }
        let p2 := pushCore st.history st.historyIndex st3.history st3.historyIndex updatedSlides st.presentationTitle
        ({ st3 with history := p2.1, historyIndex := p2.2 }, [])

/-- The consistency invariant of the spec's data model: a present media
locator implies the media kind is not `none`. -/
def mediaConsistent (s : Slide) : Prop :=
  s.mediaUrl.isSome → s.mediaType ≠ MediaType.none

instance (s : Slide) : Decidable (mediaConsistent s) :=
  inferInstanceAs (Decidable (s.mediaUrl.isSome → s.mediaType ≠ MediaType.none))

/-! Generation client (src/types.ts).  Each awaited external call is
abstracted by an outcome parameter. -/

/-- Result of one awaited external call: it raises or returns. -/
inductive CallResult (α : Type) where
  | raises
  | returns (val : α)
deriving DecidableEq, Repr

/-- The video operation object: its `done` flag and the
`response?.generatedVideos?.[0]?.video?.uri` field read after the
polling loop. -/
structure VideoOp where
  done : Bool
  uri : Option String
deriving DecidableEq, Repr

/-- Outcome of one `fetch` attempt in `generateSlideVideo`'s retry
loop: an ok response with the object URL of its blob, a 404, another
non-ok status (the code throws on it), or the fetch itself raising. -/
inductive FetchOutcome where
  | ok (blobUrl : String)
  | notFound
  | badStatus
  | raises
deriving DecidableEq, Repr

/-- Result of running one of the generation functions: the only raise
that can escape, a returned value, or divergence (the video polling
loop never observing `done`). -/
inductive RunResult where
  | raises (msg : String)
  | returns (url : Option String)
  | diverges
deriving DecidableEq, Repr

/-- Environment for `generateSlideImage`: the API key and the outcome
of `ai.models.generateImages` (raise, or the possibly-absent
`imageBytes` of the first generated image). -/
structure ImageEnv where
  apiKey : Option String
  genImages : CallResult (Option String)
deriving DecidableEq, Repr

/-- Environment for `generateSlideVideo`: the API key, the outcome of
`ai.models.generateVideos`, the successive
`ai.operations.getVideosOperation` results, and the outcomes of the
three fetch attempts. -/
structure VideoEnv where
  apiKey : Option String
  genVideos : CallResult VideoOp
  polls : List (CallResult VideoOp)
  f0 : FetchOutcome
  f1 : FetchOutcome
  f2 : FetchOutcome
deriving DecidableEq, Repr

/-- `generateSlideImage` (src/types.ts lines 138-160).
`getAiClient()` runs before the try block; everything inside the try is
converted to `null` by the catch. -/
def generateSlideImage (env : ImageEnv) : RunResult :=
  match env.apiKey with
  | Option.none => RunResult.raises "API Key not found in environment variables."
  | Option.some _ =>
    match env.genImages with
    | CallResult.raises => RunResult.returns Option.none
    | CallResult.returns Option.none => RunResult.returns Option.none
    | CallResult.returns (Option.some b64) =>
        if b64 == "" then RunResult.returns Option.none
        else RunResult.returns (Option.some ("data:image/jpeg;base64," ++ b64))

/-- The `while (!operation.done)` polling loop: `completes` with the
final operation, `raises` if a poll throws, `diverges` if the modelled
poll sequence runs out before `done` is observed. -/
inductive PollOut where
  | raises
  | diverges
  | completes (op : VideoOp)
deriving DecidableEq, Repr

/-- Runs the polling loop from a current operation over the successive
poll results. -/
def pollLoop : VideoOp → List (CallResult VideoOp) → PollOut
  | op, polls =>
    if op.done then PollOut.completes op
    else
      match polls with
      | [] => PollOut.diverges
      | CallResult.raises :: _ => PollOut.raises
      | CallResult.returns op2 :: rest => pollLoop op2 rest

/-- The three-attempt fetch retry loop.  `Except.error` is the rethrow
on the last attempt (`if (i === 2) throw e`); running off the end of
the loop (three 404s) falls through to `return null`. -/
def fetchAttempt3 (f0 f1 f2 : FetchOutcome) : Except Unit (Option String) :=
  match f0 with
  | FetchOutcome.ok u => Except.ok (Option.some u)
  | _ =>
    match f1 with
    | FetchOutcome.ok u => Except.ok (Option.some u)
    | _ =>
      match f2 with
      | FetchOutcome.ok u => Except.ok (Option.some u)
      | FetchOutcome.notFound => Except.ok Option.none
      | FetchOutcome.badStatus => Except.error ()
      | FetchOutcome.raises => Except.error ()

/-- `generateSlideVideo` (src/types.ts lines 162-212). -/
def generateSlideVideo (env : VideoEnv) : RunResult :=
  match env.apiKey with
  | Option.none => RunResult.raises "API Key not found in environment variables."
  | Option.some _ =>
    match env.genVideos with
    | CallResult.raises => RunResult.returns Option.none
    | CallResult.returns op0 =>
      match pollLoop op0 env.polls with
      | PollOut.raises => RunResult.returns Option.none
      | PollOut.diverges => RunResult.diverges
      | PollOut.completes opF =>
        if jsTruthyStr opF.uri then
          match fetchAttempt3 env.f0 env.f1 env.f2 with
          | Except.ok r => RunResult.returns r
          | Except.error _ => RunResult.returns Option.none
        else RunResult.returns Option.none

/-! Concrete fixtures used by closed theorems and witnesses. -/

/-- A plain slide without media. -/
def slideA : Slide :=
  { id := "a", layout := SlideLayout.title, title := "Alpha",
    content := ["one"], imagePrompt := "p", mediaType := MediaType.none }

/-- A second plain slide. -/
def slideB : Slide :=
  { id := "b", layout := SlideLayout.conclusion, title := "Beta",
    content := [], imagePrompt := "q", mediaType := MediaType.none }

/-- A slide that already carries an image. -/
def slideImgA : Slide :=
  { id := "a", layout := SlideLayout.center, title := "Pic",
    content := [], imagePrompt := "p", mediaType := MediaType.image,
    mediaUrl := Option.some "blob:img" }

/-- The initial controller state (empty deck, empty history). -/
def st0 : AppState :=
  { slides := [], currentSlideIndex := 0, presentationTitle := "",
    history := [], historyIndex := -1, isRestoringHistory := false }

/-- Thirty pairwise distinct history entries. -/
def h30 : List HistoryEntry :=
  (List.range 30).map (fun n => { slides := [], title := Nat.repr n })

/-- A state whose history log is full (30 entries, index 29). -/
def stFull : AppState :=
  { slides := [], currentSlideIndex := 0, presentationTitle := "t",
    history := h30, historyIndex := 29, isRestoringHistory := false }

/-- The state after 31 fresh pushes from the initial state. -/
def c1Final : AppState :=
  pushSeq st0 (List.replicate 31 ([], ""))

/-- A two-slide deck state with a one-entry history, about to run a
media generation job. -/
def genSt : AppState :=
  { slides := [slideA, slideB], currentSlideIndex := 0, presentationTitle := "T",
    history := [{ slides := [], title := "T0" }], historyIndex := 0,
    isRestoringHistory := false }

/-- A state whose deck slides equal those of the current history entry
while the title differs. -/
def c2St : AppState :=
  { slides := [slideA], currentSlideIndex := 0, presentationTitle := "B",
    history := [{ slides := [slideA], title := "A" }], historyIndex := 0,
    isRestoringHistory := false }

/-- A one-slide deck whose slide already has an image. -/
def c3St : AppState :=
  { slides := [slideImgA], currentSlideIndex := 0, presentationTitle := "T",
    history := [], historyIndex := -1, isRestoringHistory := false }

/-- A state with a two-entry history, index at the top. -/
def stTwo : AppState :=
  { slides := [slideB], currentSlideIndex := 0, presentationTitle := "t2",
    history := [{ slides := [], title := "e0" }, { slides := [slideB], title := "e1" }],
    historyIndex := 1, isRestoringHistory := false }

/-- `slideA` after the null-result reconciliation: loading cleared, no
locator, kind `none`. -/
def slideAReset : Slide :=
  { slideA with isLoadingMedia := Option.some false, mediaUrl := Option.none,
                mediaType := MediaType.none }

/-- The pre-job snapshot `generateMediaForSlide` pushes from `genSt`. -/
def preEntryT : HistoryEntry :=
  { slides := [slideA, slideB], title := "T" }

/-- The post-job snapshot for the null-result run from `genSt`. -/
def postEntryT : HistoryEntry :=
  { slides := [slideAReset, slideB], title := "T" }

/-- `slideImgA` after a failed regeneration: kind reset, loading
cleared, but the old locator still present. -/
def slideImgAFailed : Slide :=
  { slideImgA with isLoadingMedia := Option.some false, mediaType := MediaType.none }

/-- A deck with exactly one slide. -/
def oneSlideSt : AppState :=
  { slides := [slideA], currentSlideIndex := 0, presentationTitle := "solo",
    history := [], historyIndex := -1, isRestoringHistory := false }

/-- An image-generation environment with no API key configured. -/
def imgEnvNoKey : ImageEnv :=
  { apiKey := Option.none, genImages := CallResult.returns Option.none }

/-- A video-generation environment whose `generateVideos` call
raises. -/
def vidEnvRaises : VideoEnv :=
  { apiKey := Option.some "k", genVideos := CallResult.raises, polls := [],
    f0 := FetchOutcome.notFound, f1 := FetchOutcome.notFound, f2 := FetchOutcome.notFound }

/-! Theorems. -/

set_option maxRecDepth 8000 in
/-- C1: the claim says the current index always stays within
[-1, length-1], and that a push onto a full 30-entry log drops the
oldest entry and leaves the index pointing at the appended entry.  The
code violates this: after 31 fresh pushes from the empty state the log
indeed holds 30 entries, but the index is 30 — past the last valid
position 29 — because the adjustment branch in `pushToHistory` tests
the pre-push `history.length > 30`, which never holds for a log capped
at 30 (the code's own comment says the index should be adjusted when
the array is shifted).  This theorem evaluates the model at that
failing input. -/
theorem pushToHistory_index_escapes_bound :
    c1Final.history.length = 30 ∧ c1Final.historyIndex = 30 ∧
    ((c1Final.history.length : Int) - 1 < c1Final.historyIndex) := by
  decide

/-- C8: evaluation of `generateMediaForSlide` on slide "a" with a null
generation result, from `genSt`.  The slide-state part of the claim
holds (media kind `none`, no locator, loading flag `false`), but the
history part fails: the post-job push reuses the `historyIndex`
captured at call start, so its slice overwrites the pre-job
checkpoint.  The history gains exactly one entry (the post-job
snapshot); the pre-job snapshot, here the entry holding the original
slides with title "T", is nowhere in the final log, and the index lands
at 2 with a log of length 2. -/
theorem generateMedia_null_single_checkpoint :
    (generateMediaForSlide genSt "a" MediaReq.image (GenOutcome.returns Option.none)).2 = [] ∧
    (generateMediaForSlide genSt "a" MediaReq.image (GenOutcome.returns Option.none)).1.slides =
      [slideAReset, slideB] ∧
    (generateMediaForSlide genSt "a" MediaReq.image (GenOutcome.returns Option.none)).1.history =
      [{ slides := [], title := "T0" }, postEntryT] ∧
    preEntryT ∉
      (generateMediaForSlide genSt "a" MediaReq.image (GenOutcome.returns Option.none)).1.history ∧
    (generateMediaForSlide genSt "a" MediaReq.image (GenOutcome.returns Option.none)).1.historyIndex = 2 ∧
    (generateMediaForSlide genSt "a" MediaReq.image (GenOutcome.returns Option.none)).1.history.length = 2 := by
  decide

/-- For a nonnegative end, `slice(0, e)` is `take`. -/
lemma sliceTo_of_nonneg (l : List α) (e : Int) (h : 0 ≤ e) :
    sliceTo l e = l.take e.toNat := by
  unfold sliceTo
  rw [if_neg (by omega)]

/-- A slice is never longer than the list. -/
lemma length_sliceTo_le (l : List α) (e : Int) : (sliceTo l e).length ≤ l.length := by
  unfold sliceTo
  split <;> simp [List.length_take]

/-- `historyAt` at a natural index is `get?`. -/
lemma historyAt_natCast (l : List α) (n : Nat) : historyAt l (n : Int) = l.get? n := by
  unfold historyAt
  rw [if_neg (by omega)]
  simp

/-- A fresh push preserves the 30-entry bound. -/
lemma pushToHistory_length_le (st : AppState) (ns : List Slide) (nt : String)
    (h : st.history.length ≤ 30) :
    (pushToHistory st ns nt).history.length ≤ 30 := by
  have hs := length_sliceTo_le st.history (st.historyIndex + 1)
  unfold pushToHistory pushCore
  dsimp only
  split
  · simp only [List.length_drop, List.length_append, List.length_cons, List.length_nil]
    omega
  · rename_i hne
    omega

/-- Characterization of a fresh, non-overflowing push: the log is
pruned at the index, the snapshot appended, and the index moves to the
new last position. -/
lemma pushToHistory_spec (st : AppState) (ns : List Slide) (nt : String) (n : Nat)
    (hidx : st.historyIndex = (n : Int) - 1) (hle : n ≤ st.history.length)
    (hsz : st.history.length ≤ 30) (hno : n < 30) :
    (pushToHistory st ns nt).history =
      st.history.take n ++ [{ slides := ns, title := nt }] ∧
    (pushToHistory st ns nt).historyIndex = (n : Int) ∧
    (pushToHistory st ns nt).history.length = n + 1 := by
  have he : st.historyIndex + 1 = (n : Int) := by omega
  have htk : (st.history.take n).length = n := by
    rw [List.length_take]; omega
  unfold pushToHistory pushCore
  dsimp only
  rw [he, sliceTo_of_nonneg _ _ (by omega)]
  simp only [Int.toNat_natCast]
  have hlen : (st.history.take n ++ [({ slides := ns, title := nt } : HistoryEntry)]).length = n + 1 := by
    simp [htk]
  rw [if_neg (by omega), if_neg (by omega)]
  exact ⟨rfl, rfl, hlen⟩

/-- Characterization of an overflow push (log full, index at the top):
the oldest entry is dropped, the snapshot appended, and the index —
because the adjustment branch tests the pre-push length against 30 —
moves to 30, one past the last valid position 29. -/
lemma pushToHistory_overflow (st : AppState) (ns : List Slide) (nt : String)
    (hl : st.history.length = 30) (hi : st.historyIndex = 29) :
    (pushToHistory st ns nt).history =
      st.history.drop 1 ++ [{ slides := ns, title := nt }] ∧
    (pushToHistory st ns nt).historyIndex = 30 ∧
    (pushToHistory st ns nt).history.length = 30 := by
  unfold pushToHistory pushCore
  dsimp only
  rw [hi, sliceTo_of_nonneg _ _ (by omega)]
  rw [(by decide : ((29 : Int) + 1).toNat = 30)]
  rw [List.take_of_length_le (by omega)]
  rw [if_pos (by simp [hl]), if_neg (by omega)]
  refine ⟨List.drop_append_of_le_length (by omega), rfl, ?_⟩
  simp [List.length_append, List.length_drop, hl]

/-- Indexing into a pruned-and-appended log below the appended
position reads the original log. -/
lemma get?_take_append_lt (l : List α) (x : α) (n j : Nat) (hj : j < n) (hn : n ≤ l.length) :
    (l.take n ++ [x]).get? j = l.get? j := by
  rw [List.get?_append (by rw [List.length_take]; omega)]
  exact List.get?_take hj

/-- Indexing a pruned-and-appended log at the appended position reads
the appended snapshot. -/
lemma get?_take_append_self (l : List α) (x : α) (n : Nat) (hn : n ≤ l.length) :
    (l.take n ++ [x]).get? n = Option.some x := by
  have htk : (l.take n).length = n := by rw [List.length_take]; omega
  rw [List.get?_append_right (by omega), htk]
  simp

/-- One `undo` from index n+1 restores entry n. -/
lemma undo_spec (st : AppState) (n : Nat) (hidx : st.historyIndex = (n : Int) + 1)
    (hlt : n < st.history.length) :
    ∃ e, st.history.get? n = Option.some e ∧
      undo st = Option.some { st with slides := e.slides, presentationTitle := e.title,
                                      historyIndex := (n : Int),
                                      isRestoringHistory := false } := by
  refine ⟨st.history.get ⟨n, hlt⟩, List.get?_eq_get hlt, ?_⟩
  unfold undo
  rw [if_pos (by omega)]
  have h1 : st.historyIndex - 1 = (n : Int) := by omega
  rw [h1, historyAt_natCast, List.get?_eq_get hlt]

/-- One `redo` from index n advances to entry n+1. -/
lemma redo_spec (st : AppState) (n : Nat) (hidx : st.historyIndex = (n : Int))
    (hlt : n + 1 < st.history.length) :
    ∃ e, st.history.get? (n + 1) = Option.some e ∧
      redo st = Option.some { st with slides := e.slides, presentationTitle := e.title,
                                      historyIndex := ((n + 1 : Nat) : Int),
                                      isRestoringHistory := false } := by
  refine ⟨st.history.get ⟨n + 1, hlt⟩, List.get?_eq_get hlt, ?_⟩
  unfold redo
  rw [if_pos (by omega)]
  have h1 : st.historyIndex + 1 = ((n + 1 : Nat) : Int) := by omega
  rw [h1, historyAt_natCast, List.get?_eq_get hlt]

/-- Iterated `undo` from index k lands on entry k - m, restoring its
snapshot, for 1 ≤ m ≤ k ≤ length. -/
lemma undoIter_eq : ∀ (m : Nat), 1 ≤ m → ∀ (st : AppState) (k : Nat),
    st.historyIndex = (k : Int) → m ≤ k → k ≤ st.history.length →
    ∃ e, st.history.get? (k - m) = Option.some e ∧
      undoIter m st = Option.some { st with slides := e.slides, presentationTitle := e.title,
                                            historyIndex := ((k - m : Nat) : Int),
                                            isRestoringHistory := false } := by
  intro m
  induction m with
  | zero => intro h; exact absurd h (by decide)
  | succ m ih =>
    intro _ st k hidx hmk hkl
    have hk1 : st.historyIndex = ((k - 1 : Nat) : Int) + 1 := by
      rw [hidx]; omega
    obtain ⟨e1, hg1, hu1⟩ := undo_spec st (k - 1) hk1 (by omega)
    by_cases hm : m = 0
    · subst hm
      refine ⟨e1, ?_, ?_⟩
      · have : k - 1 = k - (0 + 1) := by omega
        rw [← this]; exact hg1
      · show (undo st).bind (undoIter 0) = _
        rw [hu1]
        rfl
    · obtain ⟨e2, hg2, hu2⟩ := ih (by omega)
        { st with slides := e1.slides, presentationTitle := e1.title,
                  historyIndex := ((k - 1 : Nat) : Int), isRestoringHistory := false }
        (k - 1) rfl (by omega) (by simpa using (by omega : k - 1 ≤ st.history.length))
      refine ⟨e2, ?_, ?_⟩
      · have h3 : k - 1 - m = k - (m + 1) := by omega
        rw [← h3]
        exact hg2
      · show (undo st).bind (undoIter m) = _
        rw [hu1, Option.some_bind]
        have h3 : k - 1 - m = k - (m + 1) := by omega
        rw [← h3]
        exact hu2

/-- Iterated `redo` from index k lands on entry k + m, restoring its
snapshot, for 1 ≤ m and k + m < length. -/
lemma redoIter_eq : ∀ (m : Nat), 1 ≤ m → ∀ (st : AppState) (k : Nat),
    st.historyIndex = (k : Int) → k + m < st.history.length →
    ∃ e, st.history.get? (k + m) = Option.some e ∧
      redoIter m st = Option.some { st with slides := e.slides, presentationTitle := e.title,
                                            historyIndex := ((k + m : Nat) : Int),
                                            isRestoringHistory := false } := by
  intro m
  induction m with
  | zero => intro h; exact absurd h (by decide)
  | succ m ih =>
    intro _ st k hidx hkl
    obtain ⟨e1, hg1, hr1⟩ := redo_spec st k hidx (by omega)
    by_cases hm : m = 0
    · subst hm
      refine ⟨e1, ?_, ?_⟩
      · have : k + 1 = k + (0 + 1) := by omega
        rw [← this]; exact hg1
      · show (redo st).bind (redoIter 0) = _
        rw [hr1]
        rfl
    · obtain ⟨e2, hg2, hr2⟩ := ih (by omega)
        { st with slides := e1.slides, presentationTitle := e1.title,
                  historyIndex := ((k + 1 : Nat) : Int), isRestoringHistory := false }
        (k + 1) rfl (by simpa using (by omega : k + 1 + m < st.history.length))
      refine ⟨e2, ?_, ?_⟩
      · have h3 : k + 1 + m = k + (m + 1) := by omega
        rw [← h3]
        exact hg2
      · show (redo st).bind (redoIter m) = _
        rw [hr1, Option.some_bind]
        have h3 : k + 1 + m = k + (m + 1) := by omega
        rw [← h3]
        exact hr2

/-- Iterated `redo` from the bottom of the log (index 0) reaches entry
m, for 1 ≤ m < length. -/
lemma redoIter_from_bottom (st : AppState) (m : Nat) (h1 : 1 ≤ m)
    (hidx : st.historyIndex = 0) (hm : m < st.history.length) :
    (redoIter m st).map AppState.historyIndex = Option.some (m : Int) ∧
    st.history.get? m =
      (redoIter m st).map (fun s => { slides := s.slides, title := s.presentationTitle }) := by
  obtain ⟨e, hge, hre⟩ := redoIter_eq m h1 st 0 (by rw [hidx]; rfl) (by omega)
  constructor
  · rw [hre]
    simp
  · rw [hre]
    have h2 : st.history.get? m = Option.some e := by simpa using hge
    exact h2

/-- C5: the History Log length never exceeds 30 under any sequence of
pushes; an overflow push drops the oldest entry (the new log is the old
one minus its head, plus the appended snapshot, so the dropped entry is
unreachable), and each of the 30 retained entries is reached by
iterated `undo` from the post-push state, and again by iterated `redo`
from the bottom of the log. -/
theorem history_capped_and_navigable :
    (∀ (st : AppState) (snaps : List (List Slide × String)),
        st.history.length ≤ 30 → (pushSeq st snaps).history.length ≤ 30) ∧
    (∀ (st : AppState) (ns : List Slide) (nt : String),
        st.history.length = 30 → st.historyIndex = 29 →
        (pushToHistory st ns nt).history =
          st.history.drop 1 ++ [{ slides := ns, title := nt }] ∧
        (∀ m : Nat, 1 ≤ m → m ≤ 30 →
           (undoIter m (pushToHistory st ns nt)).map AppState.historyIndex =
             Option.some ((30 - m : Nat) : Int) ∧
           (pushToHistory st ns nt).history.get? (30 - m) =
             (undoIter m (pushToHistory st ns nt)).map
               (fun s => { slides := s.slides, title := s.presentationTitle })) ∧
        (∀ m : Nat, 1 ≤ m → m ≤ 29 →
           (redoIter m ((undoIter 30 (pushToHistory st ns nt)).getD st)).map
               AppState.historyIndex = Option.some (m : Int) ∧
           (pushToHistory st ns nt).history.get? m =
             (redoIter m ((undoIter 30 (pushToHistory st ns nt)).getD st)).map
               (fun s => { slides := s.slides, title := s.presentationTitle }))) := by
  constructor
  · intro st snaps
    induction snaps generalizing st with
    | nil => intro h; simpa [pushSeq] using h
    | cons p t ih =>
      intro h
      exact ih (pushToHistory st p.1 p.2) (pushToHistory_length_le st p.1 p.2 h)
  · intro st ns nt hl hi
    obtain ⟨hph, hpi, hplen⟩ := pushToHistory_overflow st ns nt hl hi
    have hidx : (pushToHistory st ns nt).historyIndex = ((30 : Nat) : Int) := by
      rw [hpi]; simp
    refine ⟨hph, ?_, ?_⟩
    · intro m h1 h30
      obtain ⟨e, hge, hue⟩ :=
        undoIter_eq m h1 (pushToHistory st ns nt) 30 hidx (by omega) (by omega)
      constructor
      · rw [hue]; rfl
      · rw [hge, hue]; rfl
    · intro m h1 h29
      obtain ⟨e0, hg0, hu0⟩ :=
        undoIter_eq 30 (by omega) (pushToHistory st ns nt) 30 hidx (by omega) (by omega)
      rw [hu0, Option.getD_some]
      exact redoIter_from_bottom _ m h1 rfl
        (show m < (pushToHistory st ns nt).history.length by omega)

/-- C5 witness: the bound, the overflow truncation, and one undo
navigation step, at concrete inputs. -/
theorem history_capped_and_navigable_witness :
    (pushSeq st0 [([], "x")]).history.length ≤ 30 ∧
    (pushToHistory stFull [] "x").history =
      stFull.history.drop 1 ++ [{ slides := [], title := "x" }] ∧
    (undoIter 30 (pushToHistory stFull [] "x")).map AppState.historyIndex =
      Option.some ((30 - 30 : Nat) : Int) := by
  refine ⟨history_capped_and_navigable.1 st0 [([], "x")] (by decide), ?_, ?_⟩
  · exact (history_capped_and_navigable.2 stFull [] "x" (by decide) (by decide)).1
  · exact ((history_capped_and_navigable.2 stFull [] "x" (by decide) (by decide)).2.1
      30 (by omega) (by omega)).1

/-- C6 (amended): after a push that does not overflow the 30-entry
bound, `undo` restores exactly the (title, slides) pair of the entry
that was current before the push — the entry immediately preceding the
pushed one; `undo` is a no-op when the index is ≤ 0, and otherwise
decrements the index and restores the entry now pointed to (whenever
that entry exists).  After an overflow push the restored entry is the
pushed snapshot itself, not the preceding one (see the
counterexample). -/
theorem undo_after_push_restores (st : AppState) (ns : List Slide) (nt : String) :
    (0 ≤ st.historyIndex → st.historyIndex < (st.history.length : Int) →
       st.history.length < 30 →
       (undo (pushToHistory st ns nt)).map
           (fun s => (s.historyIndex,
             ({ slides := s.slides, title := s.presentationTitle } : HistoryEntry))) =
         (historyAt st.history st.historyIndex).map (fun e => (st.historyIndex, e))) ∧
    (st.historyIndex ≤ 0 → undo st = Option.some st) ∧
    (0 < st.historyIndex → st.historyIndex ≤ (st.history.length : Int) →
       (undo st).map
           (fun s => (s.historyIndex,
             ({ slides := s.slides, title := s.presentationTitle } : HistoryEntry))) =
         (historyAt st.history (st.historyIndex - 1)).map
           (fun e => (st.historyIndex - 1, e))) := by
  refine ⟨?_, ?_, ?_⟩
  · intro h0 h1 h2
    have hcast : (st.historyIndex.toNat : Int) = st.historyIndex := Int.toNat_of_nonneg h0
    obtain ⟨hh, hpi, hplen⟩ := pushToHistory_spec st ns nt (st.historyIndex.toNat + 1)
      (by push_cast; omega) (by omega) (by omega) (by omega)
    have hpidx : (pushToHistory st ns nt).historyIndex = (st.historyIndex.toNat : Int) + 1 := by
      rw [hpi]; push_cast; ring
    obtain ⟨e, hge, hue⟩ := undo_spec (pushToHistory st ns nt) st.historyIndex.toNat hpidx
      (by omega)
    have hg2 : st.history.get? st.historyIndex.toNat = Option.some e := by
      rw [← get?_take_append_lt st.history ({ slides := ns, title := nt } : HistoryEntry)
        (st.historyIndex.toNat + 1) st.historyIndex.toNat (by omega) (by omega)]
      rw [← hh]
      exact hge
    rw [hue, ← hcast, historyAt_natCast, hg2]
    rfl
  · intro h
    unfold undo
    rw [if_neg (by omega)]
  · intro h1 h2
    have hcast : ((st.historyIndex - 1).toNat : Int) = st.historyIndex - 1 :=
      Int.toNat_of_nonneg (by omega)
    obtain ⟨e, hge, hue⟩ := undo_spec st (st.historyIndex - 1).toNat (by omega) (by omega)
    rw [hue, ← hcast, historyAt_natCast, hge]
    rfl

/-- C6 counterexample: from a full 30-entry log (entries titled "0" to
"29", index 29), pushing a snapshot titled "new" and undoing restores
the pushed snapshot itself ("new"), not the immediately preceding one
(the entry now at position 28, titled "29"), because the overflow push
left the index one past the end.  The claim as stated is false at this
input. -/
theorem undo_after_overflow_restores_pushed :
    (undo (pushToHistory stFull [] "new")).map AppState.presentationTitle =
      Option.some "new" ∧
    ((pushToHistory stFull [] "new").history.get? 28).map HistoryEntry.title =
      Option.some "29" ∧
    ("new" : String) ≠ "29" := by
  decide

/-- C6 witness: undo-after-push restores the previously current entry,
at a concrete two-entry log. -/
theorem undo_after_push_restores_witness :
    (undo (pushToHistory stTwo [] "p")).map
        (fun s => (s.historyIndex,
          ({ slides := s.slides, title := s.presentationTitle } : HistoryEntry))) =
      (historyAt stTwo.history stTwo.historyIndex).map (fun e => (stTwo.historyIndex, e)) :=
  (undo_after_push_restores stTwo [] "p").1 (by decide) (by decide) (by decide)

/-- C7 (amended): a push prunes everything beyond the current index and
appends the snapshot at index+1, and `redo` immediately after any push
is a no-op; after a non-overflowing push the index equals length-1,
but after an overflow push (log already at 30 entries, index 29) the
index is 30 while length-1 is 29 (see the counterexample). -/
theorem push_prunes_redo_branch (st : AppState) (ns : List Slide) (nt : String)
    (h0 : -1 ≤ st.historyIndex) (h1 : st.historyIndex < (st.history.length : Int))
    (h2 : st.history.length ≤ 30) :
    redo (pushToHistory st ns nt) = Option.some (pushToHistory st ns nt) ∧
    (¬(st.history.length = 30 ∧ st.historyIndex = 29) →
       (pushToHistory st ns nt).history =
         st.history.take (st.historyIndex + 1).toNat ++ [{ slides := ns, title := nt }] ∧
       (pushToHistory st ns nt).historyIndex = st.historyIndex + 1 ∧
       (pushToHistory st ns nt).historyIndex =
         ((pushToHistory st ns nt).history.length : Int) - 1) ∧
    (st.history.length = 30 ∧ st.historyIndex = 29 →
       (pushToHistory st ns nt).history =
         st.history.drop 1 ++ [{ slides := ns, title := nt }] ∧
       (pushToHistory st ns nt).historyIndex = 30) := by
  by_cases hov : st.history.length = 30 ∧ st.historyIndex = 29
  · obtain ⟨hph, hpi, hplen⟩ := pushToHistory_overflow st ns nt hov.1 hov.2
    refine ⟨?_, fun hno => absurd hov hno, fun _ => ⟨hph, hpi⟩⟩
    unfold redo
    rw [if_neg (by omega)]
  · have hcast : ((st.historyIndex + 1).toNat : Int) = st.historyIndex + 1 :=
      Int.toNat_of_nonneg (by omega)
    have hno : (st.historyIndex + 1).toNat < 30 := by
      rcases Nat.lt_or_ge st.history.length 30 with h | h
      · omega
      · have hl : st.history.length = 30 := by omega
        have hne : st.historyIndex ≠ 29 := fun hi => hov ⟨hl, hi⟩
        omega
    obtain ⟨hph, hpi, hplen⟩ := pushToHistory_spec st ns nt (st.historyIndex + 1).toNat
      (by omega) (by omega) h2 hno
    refine ⟨?_, fun _ => ⟨hph, by omega, by omega⟩, fun hc => absurd hc hov⟩
    unfold redo
    rw [if_neg (by omega)]

/-- C7 counterexample: after the overflow push from the full log
`stFull`, the index does not equal length-1 (it is 30, the length is
30), refuting the claim's "after a push, the index equals length-1";
`redo` is nonetheless still a no-op there. -/
theorem push_at_bound_index_not_top :
    (pushToHistory stFull [] "new2").historyIndex ≠
      ((pushToHistory stFull [] "new2").history.length : Int) - 1 ∧
    redo (pushToHistory stFull [] "new2") = Option.some (pushToHistory stFull [] "new2") := by
  decide

/-- C7 witness: redo after a push is a no-op and the pushed entry sits
at index+1 = length-1, at a concrete two-entry log. -/
theorem push_prunes_redo_branch_witness :
    redo (pushToHistory stTwo [] "p2") = Option.some (pushToHistory stTwo [] "p2") :=
  (push_prunes_redo_branch stTwo [] "p2" (by decide) (by decide) (by decide)).1

/-- In-range indices always yield an entry. -/
lemma historyAt_in_range (l : List α) (i : Int) (h0 : 0 ≤ i) (h1 : i < (l.length : Int)) :
    ∃ e, historyAt l i = Option.some e := by
  have hlt : i.toNat < l.length := by omega
  refine ⟨l.get ⟨i.toNat, hlt⟩, ?_⟩
  unfold historyAt
  rw [if_neg (by omega)]
  exact List.get?_eq_get hlt

/-- `saveSnapshot` is the identity when the current entry's slides
equal the live slides (the title is not compared). -/
lemma saveSnapshot_of_eq (st : AppState) (hr : st.isRestoringHistory = false)
    (last : HistoryEntry) (hlast : historyAt st.history st.historyIndex = Option.some last)
    (heq : last.slides = st.slides) : saveSnapshot st = st := by
  unfold saveSnapshot
  rw [hr, if_neg (by simp), hlast]
  exact if_pos heq

/-- `saveSnapshot` pushes when the current entry's slides differ from
the live slides. -/
lemma saveSnapshot_of_ne (st : AppState) (hr : st.isRestoringHistory = false)
    (last : HistoryEntry) (hlast : historyAt st.history st.historyIndex = Option.some last)
    (hne : last.slides ≠ st.slides) :
    saveSnapshot st = pushToHistory st st.slides st.presentationTitle := by
  unfold saveSnapshot
  rw [hr, if_neg (by simp), hlast]
  exact if_neg hne

/-- C2 (amended): `saveSnapshot` compares only the slides of the entry
at the current index against the live slides, by deep value equality:
when they are equal it pushes nothing — even when the title alone has
changed, contrary to the claim (see the counterexample) — and when
they differ it pushes exactly one new entry; on an in-range,
below-the-bound log a second consecutive `saveSnapshot` with no
intervening change adds nothing. -/
theorem saveSnapshot_dedups_on_slides (st : AppState) (hr : st.isRestoringHistory = false) :
    (∀ last, historyAt st.history st.historyIndex = Option.some last →
       (last.slides = st.slides → saveSnapshot st = st) ∧
       (last.slides ≠ st.slides →
          saveSnapshot st = pushToHistory st st.slides st.presentationTitle)) ∧
    (0 ≤ st.historyIndex → st.historyIndex < (st.history.length : Int) →
       st.history.length < 30 →
       (historyAt st.history st.historyIndex).map HistoryEntry.slides ≠
         Option.some st.slides →
       (saveSnapshot st).history =
         st.history.take (st.historyIndex + 1).toNat ++
           [{ slides := st.slides, title := st.presentationTitle }]) ∧
    (0 ≤ st.historyIndex → st.historyIndex < (st.history.length : Int) →
       st.history.length < 30 →
       saveSnapshot (saveSnapshot st) = saveSnapshot st) := by
  refine ⟨fun last hlast => ⟨saveSnapshot_of_eq st hr last hlast,
    saveSnapshot_of_ne st hr last hlast⟩, ?_, ?_⟩
  · intro h0 h1 h2 hne
    obtain ⟨last, hlast⟩ := historyAt_in_range st.history st.historyIndex h0 h1
    have hne2 : last.slides ≠ st.slides := by
      intro h
      apply hne
      rw [hlast, Option.map_some']
      rw [h]
    rw [saveSnapshot_of_ne st hr last hlast hne2]
    have hcast : ((st.historyIndex + 1).toNat : Int) = st.historyIndex + 1 :=
      Int.toNat_of_nonneg (by omega)
    obtain ⟨hh, _, _⟩ := pushToHistory_spec st st.slides st.presentationTitle
      (st.historyIndex + 1).toNat (by omega) (by omega) (by omega) (by omega)
    exact hh
  · intro h0 h1 h2
    obtain ⟨last, hlast⟩ := historyAt_in_range st.history st.historyIndex h0 h1
    by_cases heq : last.slides = st.slides
    · have h := saveSnapshot_of_eq st hr last hlast heq
      rw [h]
      exact h
    · have hsave := saveSnapshot_of_ne st hr last hlast heq
      have hcast : ((st.historyIndex + 1).toNat : Int) = st.historyIndex + 1 :=
        Int.toNat_of_nonneg (by omega)
      obtain ⟨hh, hpi, hplen⟩ := pushToHistory_spec st st.slides st.presentationTitle
        (st.historyIndex + 1).toNat (by omega) (by omega) (by omega) (by omega)
      have hlast2 : historyAt (pushToHistory st st.slides st.presentationTitle).history
          (pushToHistory st st.slides st.presentationTitle).historyIndex =
          Option.some { slides := st.slides, title := st.presentationTitle } := by
        rw [hh, hpi, historyAt_natCast]
        exact get?_take_append_self _ _ _ (by omega)
      rw [hsave]
      exact saveSnapshot_of_eq (pushToHistory st st.slides st.presentationTitle) hr
        { slides := st.slides, title := st.presentationTitle } hlast2 rfl

/-- C2 counterexample: in `c2St` the deck slides equal the current
entry's slides while the title changed from "A" to "B"; the claim says
this is not deduplicated away (one entry should be pushed), but
`saveSnapshot` does nothing: the state is unchanged and the log still
has one entry. -/
theorem saveSnapshot_ignores_title_change :
    saveSnapshot c2St = c2St ∧
    c2St.presentationTitle = "B" ∧
    (historyAt c2St.history c2St.historyIndex).map HistoryEntry.title = Option.some "A" ∧
    (saveSnapshot c2St).history.length = 1 := by
  decide

/-- C2 witness: on `genSt` (whose slides differ from the current
entry's), one `saveSnapshot` pushes exactly one pruned-and-appended
entry, and a second consecutive call adds nothing. -/
theorem saveSnapshot_dedups_on_slides_witness :
    saveSnapshot genSt = pushToHistory genSt genSt.slides genSt.presentationTitle ∧
    (saveSnapshot genSt).history =
      genSt.history.take (genSt.historyIndex + 1).toNat ++
        [{ slides := genSt.slides, title := genSt.presentationTitle }] ∧
    saveSnapshot (saveSnapshot genSt) = saveSnapshot genSt := by
  refine ⟨((saveSnapshot_dedups_on_slides genSt rfl).1 { slides := [], title := "T0" }
      (by decide)).2 (by decide),
    (saveSnapshot_dedups_on_slides genSt rfl).2.1 (by decide) (by decide) (by decide)
      (by decide),
    (saveSnapshot_dedups_on_slides genSt rfl).2.2 (by decide) (by decide) (by decide)⟩

/-- Characterization of the failure path of `generateMediaForSlide`:
the two slide maps compose to one update that clears the loading flag
and resets the kind on the targeted slide (touching nothing else, in
particular not `mediaUrl`); the alert is surfaced; the history is
exactly the pre-job push and nothing more. -/
lemma generateMedia_raises_parts (st : AppState) (slideId : String) (req : MediaReq)
    (sl : Slide) (hsl : st.slides.find? (fun s => s.id == slideId) = Option.some sl) :
    (generateMediaForSlide st slideId req GenOutcome.raises).1.slides =
      st.slides.map (fun s => if s.id == slideId then
        { s with isLoadingMedia := Option.some false, mediaType := MediaType.none } else s) ∧
    (generateMediaForSlide st slideId req GenOutcome.raises).2 =
      ["Media generation failed. Please try again."] ∧
    (generateMediaForSlide st slideId req GenOutcome.raises).1.history =
      (pushToHistory st st.slides st.presentationTitle).history ∧
    (generateMediaForSlide st slideId req GenOutcome.raises).1.historyIndex =
      (pushToHistory st st.slides st.presentationTitle).historyIndex := by
  refine ⟨?_, ?_, ?_, ?_⟩
  · simp only [generateMediaForSlide, hsl]
    rw [List.map_map, List.map_eq_map_iff]
    intro a _
    simp only [Function.comp]
    cases hb : (a.id == slideId) <;> simp [hb]
  · simp only [generateMediaForSlide, hsl]
  · simp only [generateMediaForSlide, hsl]
    rfl
  · simp only [generateMediaForSlide, hsl]
    rfl

/-- Characterization of the resolved path of `generateMediaForSlide`:
the final write-back maps the call-time slide list, setting locator and
kind from the (possibly null) result, and surfaces no alert. -/
lemma generateMedia_returns_parts (st : AppState) (slideId : String) (req : MediaReq)
    (url : Option String) (sl : Slide)
    (hsl : st.slides.find? (fun s => s.id == slideId) = Option.some sl) :
    (generateMediaForSlide st slideId req (GenOutcome.returns url)).1.slides =
      st.slides.map (fun s => if s.id == slideId then
        { s with isLoadingMedia := Option.some false,
                 mediaUrl := if jsTruthyStr url then url else Option.none,
                 mediaType := if jsTruthyStr url then req.toMediaType else MediaType.none }
        else s) ∧
    (generateMediaForSlide st slideId req (GenOutcome.returns url)).2 = [] := by
  constructor
  · simp only [generateMediaForSlide, hsl]
  · simp only [generateMediaForSlide, hsl]

/-- C3 (amended): the claimed invariant — a present media locator
implies the kind is not `none` — is preserved by the success and
null-result paths of `generateMediaForSlide`, but the failure path
violates it: it resets the kind to `none` while leaving a previously
set locator on the slide, so a slide that had media before a failed
regeneration ends inconsistent. -/
theorem mediaFailure_keeps_stale_locator (st : AppState) (slideId : String) (req : MediaReq)
    (hfind : (st.slides.find? (fun s => s.id == slideId)).isSome) :
    ((generateMediaForSlide st slideId req GenOutcome.raises).1.slides =
       st.slides.map (fun s => if s.id == slideId then
         { s with isLoadingMedia := Option.some false, mediaType := MediaType.none }
         else s)) ∧
    (∀ u s, s ∈ st.slides → s.id = slideId → s.mediaUrl = Option.some u →
       ∃ s2, s2 ∈ (generateMediaForSlide st slideId req GenOutcome.raises).1.slides ∧
         s2.id = slideId ∧ s2.mediaType = MediaType.none ∧ s2.mediaUrl = Option.some u ∧
         ¬ mediaConsistent s2) ∧
    (∀ url, (∀ s ∈ st.slides, mediaConsistent s) →
       ∀ s2 ∈ (generateMediaForSlide st slideId req (GenOutcome.returns url)).1.slides,
         mediaConsistent s2) := by
  obtain ⟨sl, hsl⟩ := Option.isSome_iff_exists.mp hfind
  obtain ⟨hslides, _, _, _⟩ := generateMedia_raises_parts st slideId req sl hsl
  refine ⟨hslides, ?_, ?_⟩
  · intro u s hs hid hurl
    have hb : (s.id == slideId) = true := by simp [hid]
    refine ⟨{ s with isLoadingMedia := Option.some false, mediaType := MediaType.none },
      ?_, hid, rfl, hurl, ?_⟩
    · rw [hslides]
      have hmem := List.mem_map_of_mem (fun s => if s.id == slideId then
        { s with isLoadingMedia := Option.some false, mediaType := MediaType.none } else s) hs
      simpa [hb] using hmem
    · intro hc
      exact hc (by show s.mediaUrl.isSome = true; rw [hurl]; rfl) rfl
  · intro url hcons s2 hs2
    rw [(generateMedia_returns_parts st slideId req url sl hsl).1] at hs2
    obtain ⟨a, ha, rfl⟩ := List.mem_map.mp hs2
    cases hb : (a.id == slideId) with
    | false =>
      rw [if_neg Bool.false_ne_true]
      exact hcons a ha
    | true =>
      rw [if_pos rfl]
      unfold mediaConsistent
      intro hsome
      cases hjt : jsTruthyStr url with
      | false =>
        simp [hjt] at hsome
      | true =>
        show req.toMediaType ≠ MediaType.none
        cases req <;> decide

/-- C3 counterexample: running the failure path on a slide that
already carries an image leaves the slide with kind `none` but the old
locator still present — the invariant "locator present implies kind is
not none" is false on the resulting deck. -/
theorem mediaFailure_violates_invariant :
    (generateMediaForSlide c3St "a" MediaReq.image GenOutcome.raises).1.slides =
      [slideImgAFailed] ∧
    slideImgAFailed.mediaUrl = Option.some "blob:img" ∧
    slideImgAFailed.mediaType = MediaType.none ∧
    ¬ mediaConsistent slideImgAFailed := by
  decide

/-- C3 witness: the failure-path slide update at a concrete deck,
showing the locator field is untouched. -/
theorem mediaFailure_keeps_stale_locator_witness :
    (generateMediaForSlide c3St "a" MediaReq.image GenOutcome.raises).1.slides =
      c3St.slides.map (fun s => if s.id == "a" then
        { s with isLoadingMedia := Option.some false, mediaType := MediaType.none }
        else s) :=
  (mediaFailure_keeps_stale_locator c3St "a" MediaReq.image (by decide)).1

/-- C4: when the generation call chain raises, `generateMediaForSlide`
clears the targeted slide's loading flag, resets its media kind to
`none`, surfaces the failure alert, and pushes no post-job checkpoint:
the history and index are exactly those of the pre-job push.  A null
result, by contrast, surfaces no alert. -/
theorem mediaFailure_error_handling (st : AppState) (slideId : String) (req : MediaReq)
    (hfind : (st.slides.find? (fun s => s.id == slideId)).isSome) :
    (generateMediaForSlide st slideId req GenOutcome.raises).2 =
      ["Media generation failed. Please try again."] ∧
    (∀ s2 ∈ (generateMediaForSlide st slideId req GenOutcome.raises).1.slides,
       s2.id = slideId →
         s2.isLoadingMedia = Option.some false ∧ s2.mediaType = MediaType.none) ∧
    (generateMediaForSlide st slideId req GenOutcome.raises).1.history =
      (pushToHistory st st.slides st.presentationTitle).history ∧
    (generateMediaForSlide st slideId req GenOutcome.raises).1.historyIndex =
      (pushToHistory st st.slides st.presentationTitle).historyIndex ∧
    (generateMediaForSlide st slideId req (GenOutcome.returns Option.none)).2 = [] ∧
    (∀ s2 ∈ (generateMediaForSlide st slideId req (GenOutcome.returns Option.none)).1.slides,
       s2.id = slideId → s2.mediaType = MediaType.none ∧ s2.mediaUrl = Option.none) := by
  obtain ⟨sl, hsl⟩ := Option.isSome_iff_exists.mp hfind
  obtain ⟨hslides, halerts, hhist, hidx2⟩ := generateMedia_raises_parts st slideId req sl hsl
  refine ⟨halerts, ?_, hhist, hidx2,
    (generateMedia_returns_parts st slideId req Option.none sl hsl).2, ?_⟩
  · intro s2 hs2 hid
    rw [hslides] at hs2
    obtain ⟨a, ha, rfl⟩ := List.mem_map.mp hs2
    cases hb : (a.id == slideId) with
    | false =>
      exfalso
      simp only [hb, Bool.false_eq_true, if_false] at hid
      simp only [beq_eq_false_iff_ne] at hb
      exact hb hid
    | true =>
      rw [if_pos rfl]
      exact ⟨rfl, rfl⟩
  · intro s2 hs2 hid
    rw [(generateMedia_returns_parts st slideId req Option.none sl hsl).1] at hs2
    obtain ⟨a, ha, rfl⟩ := List.mem_map.mp hs2
    cases hb : (a.id == slideId) with
    | false =>
      exfalso
      simp only [hb, Bool.false_eq_true, if_false] at hid
      simp only [beq_eq_false_iff_ne] at hb
      exact hb hid
    | true =>
      rw [if_pos rfl]
      exact ⟨rfl, rfl⟩

/-- C4 witness: the failure alert, the pre-job-only history, and the
silent null path, at a concrete deck. -/
theorem mediaFailure_error_handling_witness :
    (generateMediaForSlide genSt "a" MediaReq.image GenOutcome.raises).2 =
      ["Media generation failed. Please try again."] ∧
    (generateMediaForSlide genSt "a" MediaReq.image GenOutcome.raises).1.history =
      (pushToHistory genSt genSt.slides genSt.presentationTitle).history ∧
    (generateMediaForSlide genSt "a" MediaReq.image (GenOutcome.returns Option.none)).2 = [] :=
  ⟨(mediaFailure_error_handling genSt "a" MediaReq.image (by decide)).1,
   (mediaFailure_error_handling genSt "a" MediaReq.image (by decide)).2.2.1,
   (mediaFailure_error_handling genSt "a" MediaReq.image (by decide)).2.2.2.2.1⟩

/-- Filtering an enumeration by an index below its start removes
nothing. -/
lemma filter_enumFrom_of_lt (l : List α) : ∀ (n i : Nat), i < n →
    (l.enumFrom n).filter (fun p => p.1 != i) = l.enumFrom n := by
  induction l with
  | nil => intro n i _; rfl
  | cons a t ih =>
    intro n i h
    have hb : (n != i) = true := by simp; omega
    simp only [List.enumFrom, List.filter_cons, hb, if_true]
    rw [ih (n + 1) i (by omega)]

/-- Filtering one index out of an enumeration removes at most one
element. -/
lemma length_filter_enumFrom (l : List α) : ∀ (n i : Nat),
    l.length - 1 ≤ ((l.enumFrom n).filter (fun p => p.1 != i)).length := by
  induction l with
  | nil => intro n i; simp
  | cons a t ih =>
    intro n i
    by_cases h : n = i
    · subst h
      have hb : (n != n) = false := by simp
      simp only [List.enumFrom, List.filter_cons, hb, Bool.false_eq_true, if_false]
      rw [filter_enumFrom_of_lt t (n + 1) n (by omega)]
      simp [List.enumFrom_length]
    · have hb : (n != i) = true := by simp [h]
      simp only [List.enumFrom, List.filter_cons, hb, if_true, List.length_cons]
      have := ih (n + 1) i
      omega

/-- One `deleteSlide` never empties the deck. -/
lemma deleteSlide_length (st : AppState) (i : Nat) (h : 1 ≤ st.slides.length) :
    1 ≤ (deleteSlide st i).1.slides.length := by
  unfold deleteSlide
  split
  · exact h
  · rename_i hgt
    dsimp only
    rw [List.length_map]
    have h2 := length_filter_enumFrom st.slides 0 i
    show 1 ≤ ((st.slides.enumFrom 0).filter (fun p => p.1 != i)).length
    omega

/-- C9: deleting from a deck with exactly one slide is refused as a
no-op with the user-visible message, at any index; consequently a deck
that starts nonempty stays nonempty under any sequence of
deletions. -/
theorem deck_never_empties :
    (∀ (st : AppState) (idx : Nat), st.slides.length = 1 →
       deleteSlide st idx = (st, ["Presentation must have at least one slide."])) ∧
    (∀ (st : AppState) (idxs : List Nat), 1 ≤ st.slides.length →
       1 ≤ (idxs.foldl (fun s i => (deleteSlide s i).1) st).slides.length) := by
  constructor
  · intro st idx h
    unfold deleteSlide
    rw [if_pos (by omega)]
  · intro st idxs
    induction idxs generalizing st with
    | nil => intro h; simpa using h
    | cons i t ih =>
      intro h
      exact ih ((deleteSlide st i).1) (deleteSlide_length st i h)

/-- C9 witness: the refusal on a one-slide deck and the nonemptiness
after a concrete sequence of deletions. -/
theorem deck_never_empties_witness :
    deleteSlide oneSlideSt 0 = (oneSlideSt, ["Presentation must have at least one slide."]) ∧
    1 ≤ (([0, 1, 0] : List Nat).foldl (fun s i => (deleteSlide s i).1) oneSlideSt).slides.length :=
  ⟨deck_never_empties.1 oneSlideSt 0 (by decide),
   deck_never_empties.2 oneSlideSt [0, 1, 0] (by decide)⟩

/-- C10: for every environment, `generateSlideImage` and
`generateSlideVideo` raise only the missing-API-key error (thrown by
`getAiClient` before their try blocks); with a key present every
internal failure — the generation call raising, a poll raising, or the
fetch retry loop exhausting and rethrowing — is caught and converted to
a null result (the video path can also diverge if `done` is never
observed, but it cannot raise); an internal failure is therefore
indistinguishable from an empty success for the caller. -/
theorem generation_failures_become_null (ie : ImageEnv) (ve : VideoEnv) :
    (ie.apiKey = Option.none →
       generateSlideImage ie = RunResult.raises "API Key not found in environment variables.") ∧
    (ie.apiKey ≠ Option.none → ∃ r, generateSlideImage ie = RunResult.returns r) ∧
    (ve.apiKey = Option.none →
       generateSlideVideo ve = RunResult.raises "API Key not found in environment variables.") ∧
    (ve.apiKey ≠ Option.none →
       (∃ r, generateSlideVideo ve = RunResult.returns r) ∨
         generateSlideVideo ve = RunResult.diverges) ∧
    (ve.apiKey ≠ Option.none → ve.genVideos = CallResult.raises →
       generateSlideVideo ve = RunResult.returns Option.none) ∧
    (ie.apiKey ≠ Option.none →
       generateSlideImage { ie with genImages := CallResult.raises } =
         generateSlideImage { ie with genImages := CallResult.returns Option.none }) := by
  refine ⟨?_, ?_, ?_, ?_, ?_, ?_⟩
  · intro h
    simp [generateSlideImage, h]
  · intro h
    obtain ⟨k, hk⟩ := Option.ne_none_iff_exists'.mp h
    unfold generateSlideImage
    rw [hk]
    rcases ie.genImages with _ | (_ | b64)
    · exact ⟨Option.none, rfl⟩
    · exact ⟨Option.none, rfl⟩
    · by_cases hb : (b64 == "") = true
      · exact ⟨Option.none, by simp [hb]⟩
      · exact ⟨Option.some ("data:image/jpeg;base64," ++ b64), by simp [hb]⟩
  · intro h
    simp [generateSlideVideo, h]
  · intro h
    obtain ⟨k, hk⟩ := Option.ne_none_iff_exists'.mp h
    unfold generateSlideVideo
    rw [hk]
    rcases ve.genVideos with _ | op0
    · exact Or.inl ⟨Option.none, rfl⟩
    · dsimp only
      generalize pollLoop op0 ve.polls = pres
      rcases pres with _ | _ | opF
      · exact Or.inl ⟨Option.none, rfl⟩
      · exact Or.inr rfl
      · dsimp only
        by_cases hu : jsTruthyStr opF.uri = true
        · rw [if_pos hu]
          generalize fetchAttempt3 ve.f0 ve.f1 ve.f2 = fres
          rcases fres with _ | r
          · exact Or.inl ⟨Option.none, rfl⟩
          · exact Or.inl ⟨r, rfl⟩
        · rw [if_neg hu]
          exact Or.inl ⟨Option.none, rfl⟩
  · intro h hgv
    obtain ⟨k, hk⟩ := Option.ne_none_iff_exists'.mp h
    simp [generateSlideVideo, hk, hgv]
  · intro h
    obtain ⟨k, hk⟩ := Option.ne_none_iff_exists'.mp h
    simp [generateSlideImage, hk]

/-- C10 witness: the missing-key raise and the raising-call-to-null
conversion at concrete environments. -/
theorem generation_failures_become_null_witness :
    generateSlideImage imgEnvNoKey =
      RunResult.raises "API Key not found in environment variables." ∧
    generateSlideVideo vidEnvRaises = RunResult.returns Option.none :=
  ⟨(generation_failures_become_null imgEnvNoKey vidEnvRaises).1 rfl,
   (generation_failures_become_null imgEnvNoKey vidEnvRaises).2.2.2.2.1 (by decide) rfl⟩

end LuminaSlides
